import Mathlib

/-!
Verification of the eureka-cli deployment orchestration engine.

This file gives a shallow embedding, in Lean 4, of the parts of the
eureka-cli source that the specification talks about: the consumer-lag
barrier (`getConsumerGroupLag`, `pollCapabilitySetsCreation`), the module
health probe (`PerformModuleHealthcheck`), the module identifier resolver
(`ExtractModuleNameAndVersion` with its regex `ModuleIdPattern`), the
application assembler's skip condition (`CreateApplications`), tenant and
entitlement removal, the role lookup (`GetRoleByName`) and its caller
(`CreateUsers`), capability-set gathering (`GetCapabilitySets`), and the
role-name case normalization in `CreateRoles` /
`AttachCapabilitySetsToRoles` / `DetachCapabilitySetsFromRoles`.

Go strings are modelled as Lean `String`/`List Char`; Go `int` as `Int`;
fallible external calls are modelled by passing their observable outcome
(stdout/stderr text, decoded response values) as explicit inputs; `panic`
and `LogErrorPanic`-style fatal aborts are modelled as explicit result
constructors.
-/

namespace EurekaSetup

/-! ## Go string primitives -/

/-- `strings.HasPrefix` on char lists: does `hay` start with `needle`? -/
def startsWithCL (needle hay : List Char) : Bool :=
  match needle, hay with
  | [], _ => true
  | _ :: _, [] => false
  | a :: as, b :: bs => a == b && startsWithCL as bs

/-- `strings.Contains` on char lists: does `hay` contain `needle` as a
contiguous substring? -/
def containsCL (hay needle : List Char) : Bool :=
  match hay with
  | [] => needle.isEmpty
  | _ :: t => startsWithCL needle hay || containsCL t needle

/-- `strings.Contains` on strings. -/
def strContains (hay needle : String) : Bool :=
  containsCL hay.data needle.data

/-- ASCII decimal digit test, the `\d` class of Go's regexp (RE2). -/
def isDigitCh (c : Char) : Bool :=
  ('0' ≤ c) && (c ≤ '9')

/-- Accumulating base-10 digit parser: succeeds only when every remaining
character is a decimal digit (`strconv.Atoi`'s digit loop; overflow of the
machine int is ignored, the inputs of interest are tiny). -/
def parseDigitsGo (acc : Nat) : List Char → Option Nat
  | [] => some acc
  | c :: cs => if isDigitCh c then parseDigitsGo (acc * 10 + (c.toNat - 48)) cs else none

/-- `strconv.Atoi`: optional sign followed by a non-empty digit run. -/
def goAtoi : List Char → Option Int
  | [] => none
  | '-' :: rest =>
    match rest with
    | [] => none
    | _ => (parseDigitsGo 0 rest).map (fun n => -(n : Int))
  | '+' :: rest =>
    match rest with
    | [] => none
    | _ => (parseDigitsGo 0 rest).map (fun n => (n : Int))
  | s => (parseDigitsGo 0 s).map (fun n => (n : Int))

/-- The Go code deletes every match of the regex `\r?\n` from stdout:
each newline, together with an immediately preceding carriage return, is
removed (a lone carriage return stays). -/
def stripNewlines : List Char → List Char
  | [] => []
  | '\r' :: '\n' :: rest => stripNewlines rest
  | '\n' :: rest => stripNewlines rest
  | c :: rest => c :: stripNewlines rest

/-- ASCII whitespace, for `strings.TrimSpace`. -/
def isSpaceGo (c : Char) : Bool :=
  c == ' ' || c == '\t' || c == '\n' || c == '\r' || c == '\x0b' || c == '\x0c'

/-- `strings.TrimSpace` on char lists. -/
def trimSpaceCL (s : List Char) : List Char :=
  ((s.dropWhile isSpaceGo).reverse.dropWhile isSpaceGo).reverse

/-! ## Consumer-Lag Barrier (attachCapabilitySets command)

`getConsumerGroupLag` shells out to `kafka-consumer-groups.sh`; we model
one invocation by the pair of texts it produced on stderr and stdout. -/

/-- Constant from the source. -/
def NoActiveMembersErrorMessage : String :=
  "Consumer group \x27folio-mod-roles-keycloak-capability-group\x27 has no active members."

/-- Constant from the source. -/
def IsRebalancingErrorMessage : String :=
  "Consumer group \x27folio-mod-roles-keycloak-capability-group\x27 is rebalancing."

/-- Observable outcome of one `kafka-consumer-groups.sh` invocation. -/
structure LagTick where
  stderr : String
  stdout : String
deriving DecidableEq

/-- Result of one `getConsumerGroupLag` call: either the run is fatally
aborted (`LogErrorPrintStderrPanic`) or a lag value is returned. -/
inductive LagCallResult
  | fatal
  | val (lag : Int)
deriving DecidableEq

/-- The two tolerated transient stderr patterns. -/
def toleratedStderr (s : String) : Bool :=
  strContains s NoActiveMembersErrorMessage || strContains s IsRebalancingErrorMessage

/-- `getConsumerGroupLag` from the source: non-empty stderr matching a
tolerated pattern returns `initialLag`; any other non-empty stderr is
fatal; otherwise stdout is stripped of newlines, trimmed and parsed with
`strconv.Atoi` — on parse failure the code logs and returns `initialLag`. -/
def getConsumerGroupLag (t : LagTick) (initialLag : Int) : LagCallResult :=
  if t.stderr.length > 0 then
    if toleratedStderr t.stderr then .val initialLag else .fatal
  else
    match goAtoi (trimSpaceCL (stripNewlines t.stdout.data)) with
    | some n => .val n
    | none => .val initialLag

/-- Outcome of the polling loop, with the number of ticks it consumed. -/
inductive PollOutcome
  | drained
  | fatalAbort
  | exhaustedTicks
deriving DecidableEq

/-- The loop body of `pollCapabilitySetsCreation`.  In the Go source the
loop is

```
var lag int
for {
    lag := getConsumerGroupLag(enableDebug, tenant, consumerGroup, lag)
    if lag == 0 { break }
    ...
}
```

The short declaration `lag :=` introduces a fresh variable each
iteration; the argument `lag` on its right-hand side is the *outer*
`var lag int`, which is never assigned, so every call receives
`initialLag = 0`.  `outerLag` is therefore a constant of the recursion,
fixed to `0` at the entry point below. -/
def pollLoop (outerLag : Int) : List LagTick → PollOutcome × Nat
  | [] => (.exhaustedTicks, 0)
  | t :: rest =>
    match getConsumerGroupLag t outerLag with
    | .fatal => (.fatalAbort, 1)
    | .val n =>
      if n == 0 then (.drained, 1)
      else
        let r := pollLoop outerLag rest
        (r.1, r.2 + 1)

/-- `pollCapabilitySetsCreation` from the source, run against a finite
sequence of tick outcomes. -/
def pollCapabilitySetsCreation (ticks : List LagTick) : PollOutcome × Nat :=
  pollLoop 0 ticks

/-- The spec's sample tick sequence `[5, 5, "rebalancing", 2, 0]`. -/
def sampleTickSeq : List LagTick :=
  [⟨"", "5"⟩, ⟨"", "5"⟩, ⟨IsRebalancingErrorMessage, ""⟩, ⟨"", "2"⟩, ⟨"", "0"⟩]

/-! ## Health Probe Waiter (`PerformModuleHealthcheck`) -/

/-- Observable outcome of one probe of the module's health endpoint:
the plain response body, and — when the body also decodes as a JSON
object (`nil` map modelled as `none`) — its `status` field. -/
structure ProbeResponse where
  body : String
  statusField : Option String
deriving DecidableEq

/-- One attempt's health decision, exactly as in the loop body: a
Vert.x-style container is healthy when the plain body contains `"OK"`;
a Spring-Boot-style container is healthy when the decoded map is
non-nil and its `status` field contains `"UP"`.  Both shapes are
evaluated on every attempt and either suffices. -/
def isHealthyResponse (r : ProbeResponse) : Bool :=
  strContains r.body "OK" ||
    (match r.statusField with
     | some s => strContains s "UP"
     | none => false)

/-- Constant from the source. -/
def HealtcheckMaxAttempts : Nat := 50

/-- Final outcome of `PerformModuleHealthcheck` for one module: either
the module reports healthy, or the attempts run out and `LogErrorPanic`
aborts the whole run. -/
inductive HealthResult
  | healthy
  | fatalAbort
deriving DecidableEq

/-- The probe loop: the counter starts at `HealtcheckMaxAttempts`; each
iteration probes once, succeeds if the response is healthy, otherwise
decrements the counter and aborts once it reaches zero.  `probe i` is
the response observed on the `i`-th attempt (0-based). -/
def healthcheckLoop (probe : Nat → ProbeResponse) : Nat → Nat → HealthResult
  | 0, _ => .fatalAbort
  | attempts + 1, i =>
    if isHealthyResponse (probe i) then .healthy
    else if attempts > 0 then healthcheckLoop probe attempts (i + 1)
    else .fatalAbort

/-- `PerformModuleHealthcheck` from the source (the `waitMutex.Done()`
bookkeeping and sleep intervals are irrelevant to the result). -/
def PerformModuleHealthcheck (probe : Nat → ProbeResponse) : HealthResult :=
  healthcheckLoop probe HealtcheckMaxAttempts 0

/-- Probe trace for the C3 witness: unhealthy for 49 attempts, healthy
(via the plain-text `"OK"` shape) on the 50th. -/
def probeTraceW : Nat → ProbeResponse :=
  fun i => if i < 49 then ⟨"", none⟩ else ⟨"OK", none⟩

/-! ## Role lookup (`GetRoleByName`) and its use in `CreateUsers` -/

/-- A platform role record (the fields the code reads). -/
structure Role where
  id : String
  name : String
deriving DecidableEq

/-- Result of `GetRoleByName`: the decoded response either has a nil
`roles` field (the function returns a nil map), or a list of role
records; any length other than 1 hits `LogErrorPanic`. -/
inductive RoleLookupResult
  | nilMap
  | fatalPanic
  | found (r : Role)
deriving DecidableEq

/-- `GetRoleByName` from the source, applied to the decoded `roles`
field of the platform's response (`none` = JSON null / missing). -/
def GetRoleByName (rolesField : Option (List Role)) : RoleLookupResult :=
  match rolesField with
  | none => .nilMap
  | some roles =>
    match roles with
    | [r] => .found r
    | _ => .fatalPanic

/-- What the per-role step of `CreateUsers` does with one configured
role name. -/
inductive UserRoleStep
  | panicked
  | skippedWithWarning
  | attachedRole (id : String)
deriving DecidableEq

/-- The role-resolution step inside `CreateUsers`:

```
role := GetRoleByName(...)
roleId := role["id"].(string)
roleName := role["name"].(string)
if roleId == "" { warn; continue }
roleIds = append(roleIds, roleId)
```

`LogErrorPanic` inside `GetRoleByName` aborts the run; when
`GetRoleByName` returns a nil map, `role["id"]` is a nil `any` and the
type assertion `.(string)` panics as well.  The warning branch is
reachable only for a single returned role whose `id` field is the empty
string. -/
def createUsersRoleStep (rolesField : Option (List Role)) : UserRoleStep :=
  match GetRoleByName rolesField with
  | .fatalPanic => .panicked
  | .nilMap => .panicked
  | .found r => if r.id = "" then .skippedWithWarning else .attachedRole r.id

/-! ## Capability sets (`GetCapabilitySets`, `addAllCapabilitySets`) -/

/-- A capability-set record (the field the attach loop reads). -/
structure CapabilitySet where
  id : String
deriving DecidableEq

/-- `GetCapabilitySets` from the source.  `perApp` is, per registered
application descriptor in order, the decoded `capabilitySets` list the
platform returned for that application's query (JSON null and the empty
list behave identically in the code, so both are modelled as `[]`).
The loop accumulates with `append`, but on the FIRST application whose
list is nil/empty it `return nil`s, discarding everything accumulated
so far. -/
def GetCapabilitySetsLoop (acc : List CapabilitySet) :
    List (List CapabilitySet) → List CapabilitySet
  | [] => acc
  | sets :: rest =>
    if sets.isEmpty then [] else GetCapabilitySetsLoop (acc ++ sets) rest

/-- `GetCapabilitySets` entry point (accumulator starts empty). -/
def GetCapabilitySets (perApp : List (List CapabilitySet)) : List CapabilitySet :=
  GetCapabilitySetsLoop [] perApp

/-- `addAllCapabilitySets` appends every record of `GetCapabilitySets`
to the (empty at call site) accumulated list; the attach loop then maps
each record to its `id`.  This is the id list the `["all"]` sentinel
branch of `AttachCapabilitySetsToRoles` attaches (when non-empty). -/
def attachAllCapabilitySetIds (perApp : List (List CapabilitySet)) : List String :=
  (GetCapabilitySets perApp).map (·.id)

/-! ## Tenant and entitlement removal -/

/-- A platform tenant record (the fields the code reads). -/
structure Tenant where
  id : String
  name : String
deriving DecidableEq

/-- `RemoveTenants` from the source: iterate the platform's tenant
list, `continue` unless the tenant's name is among the configured
tenant names, otherwise issue `DoDelete` on that tenant.  The result is
the list of tenants a delete call was issued for. -/
def RemoveTenants (platform : List Tenant) (configured : List String) : List Tenant :=
  match platform with
  | [] => []
  | t :: rest =>
    if configured.contains t.name then t :: RemoveTenants rest configured
    else RemoveTenants rest configured

/-- `RemoveTenantEntitlements` from the source: same filter over the
platform tenant list, issuing `DoDeleteWithBody` (keyed by the tenant's
id) for each configured tenant.  The result is the list of tenants an
entitlement delete was issued for. -/
def RemoveTenantEntitlements (platform : List Tenant) (configured : List String) :
    List Tenant :=
  match platform with
  | [] => []
  | t :: rest =>
    if configured.contains t.name then t :: RemoveTenantEntitlements rest configured
    else RemoveTenantEntitlements rest configured

/-! ## Application Assembler skip condition (`CreateApplications`) -/

/-- The per-module skip decision in `CreateApplications`:

```
backendModule, okBackend := dto.BackendModulesMap[module.Name]
frontendModule, okFrontend := dto.FrontendModulesMap[module.Name]
if (!okBackend && !okFrontend) ||
   (okBackend && !backendModule.DeployModule || okFrontend && !frontendModule.DeployModule) {
    continue
}
```

A map entry is modelled as `some deployFlag` when the module name is a
key of the map (`Option.getD false` is Go's zero value for the struct
field when the key is absent — it is only consulted under the
corresponding `ok` guard anyway). -/
def shouldSkipModule (backendEntry frontendEntry : Option Bool) : Bool :=
  let okBackend := backendEntry.isSome
  let okFrontend := frontendEntry.isSome
  let backendDeploy := backendEntry.getD false
  let frontendDeploy := frontendEntry.getD false
  (!okBackend && !okFrontend) ||
    (okBackend && !backendDeploy || okFrontend && !frontendDeploy)

/-- The spec's reading of the skip rule for a module present in both
maps: skip only when both deploy flags are false. -/
def specSkipWhenBothDecline (backendDeploy frontendDeploy : Bool) : Bool :=
  !backendDeploy && !frontendDeploy

/-! ## Role-name case normalization
(`CreateRoles`, `AttachCapabilitySetsToRoles`, `DetachCapabilitySetsFromRoles`) -/

/-- ASCII fragment of `strings.ToLower` (the configured role keys and
platform role names of interest are ASCII). -/
def toLowerGo (c : Char) : Char :=
  if 'A' ≤ c ∧ c ≤ 'Z' then Char.ofNat (c.toNat + 32) else c

/-- ASCII fragment of the per-character uppercase mapping used by
`cases.Title(language.English)`. -/
def toUpperGo (c : Char) : Char :=
  if 'a' ≤ c ∧ c ≤ 'z' then Char.ofNat (c.toNat - 32) else c

/-- ASCII letter test. -/
def isLetterGo (c : Char) : Bool :=
  ('a' ≤ c && c ≤ 'z') || ('A' ≤ c && c ≤ 'Z')

/-- `strings.ToLower` on a string (ASCII fragment). -/
def strToLower (s : String) : String :=
  ⟨s.data.map toLowerGo⟩

/-- `cases.Title(language.English).String`, ASCII fragment: the first
letter of every word is uppercased and the following letters are
lowercased; a non-letter ends the current word. -/
def titleGo (atWordStart : Bool) : List Char → List Char
  | [] => []
  | c :: cs =>
    if isLetterGo c then
      (if atWordStart then toUpperGo c else toLowerGo c) :: titleGo false cs
    else
      c :: titleGo true cs

/-- `caser.String` as used by `CreateRoles`. -/
def titleCaseGo (s : String) : String :=
  ⟨titleGo true s.data⟩

/-- The configuration record of one role (the fields these loops read). -/
structure RoleConfig where
  tenant : String
deriving DecidableEq

/-- Lookup in the viper `rolesMap` (a Go map: keys are unique). -/
def lookupRoleKey (rolesMap : List (String × RoleConfig)) (key : String) :
    Option RoleConfig :=
  (rolesMap.find? (fun p => p.1 == key)).map (·.2)

/-- `CreateRoles` from the source: for each configured role key whose
configured tenant is the tenant being provisioned, POST a role named
`caser.String(role)`.  The result is the list of role names created. -/
def CreateRoles (existingTenant : String) (rolesMap : List (String × RoleConfig)) :
    List String :=
  rolesMap.filterMap (fun p =>
    if existingTenant = p.2.tenant then some (titleCaseGo p.1) else none)

/-- `AttachCapabilitySetsToRoles` processes a platform role exactly when
`rolesMapConfig[strings.ToLower(roleName)]` exists AND the configured
tenant equals the tenant being processed (both `continue` otherwise). -/
def attachProcessesRole (rolesMap : List (String × RoleConfig)) (tenant roleName : String) :
    Bool :=
  match lookupRoleKey rolesMap (strToLower roleName) with
  | none => false
  | some cfg => tenant == cfg.tenant

/-- `DetachCapabilitySetsFromRoles` processes a platform role exactly
when `rolesMap[strings.ToLower(roleName)]` exists (no tenant check). -/
def detachProcessesRole (rolesMap : List (String × RoleConfig)) (roleName : String) :
    Bool :=
  (lookupRoleKey rolesMap (strToLower roleName)).isSome

/-! ## Identifier Resolver (`ExtractModuleNameAndVersion`)

The source parses a module id with

```
ModuleIdPattern = "([a-z-_]+)([\d-_.]+)([a-zA-Z0-9-_.]+)"
module.Name = TrimModuleName(ModuleIdRegexp.ReplaceAllString(module.Id, `$1`))
moduleVersion = ModuleIdRegexp.ReplaceAllString(module.Id, `$2$3`)
module.SidecarName = fmt.Sprintf("%s-sc", module.Name)
```

Go's `regexp` has Perl-style leftmost-first semantics: the match starts
at the earliest possible position, plus-quantified character classes
are greedy and backtrack only as far as needed, and `ReplaceAllString`
rewrites every non-overlapping match (continuing after each match's
end) while leaving unmatched text untouched — in particular an id with
NO match is returned unchanged.  The three character classes are
`[a-z-_]`, `[0-9-_.]` (`\d` is `[0-9]` in RE2) and `[a-zA-Z0-9-_.]`
(the hyphens sit between a completed range and a literal, so they are
literals).  The matcher below implements exactly this behaviour for
this one pattern. -/

/-- The class `[a-z-_]` (group 1). -/
def mClass1 (c : Char) : Bool :=
  ('a' ≤ c && c ≤ 'z') || c == '-' || c == '_'

/-- The class `[\d-_.]` (group 2). -/
def mClass2 (c : Char) : Bool :=
  isDigitCh c || c == '-' || c == '_' || c == '.'

/-- The class `[a-zA-Z0-9-_.]` (group 3). -/
def mClass3 (c : Char) : Bool :=
  ('a' ≤ c && c ≤ 'z') || ('A' ≤ c && c ≤ 'Z') || isDigitCh c ||
    c == '-' || c == '_' || c == '.'

/-- Backtracking over group 2's length (from the greedy maximum down to
1): group 3 then greedily takes the maximal non-empty `mClass3` run.
`s` is the text after group 1; the lengths tried never exceed the
maximal `mClass2` run at the head of `s`, so `s.take len2` is the group
2 candidate. -/
def tryGroup2 (s : List Char) : Nat → Option (List Char × List Char × List Char)
  | 0 => none
  | len2 + 1 =>
    let g3run := (s.drop (len2 + 1)).takeWhile mClass3
    if g3run.isEmpty then tryGroup2 s len2
    else some (s.take (len2 + 1), g3run, s.drop (len2 + 1 + g3run.length))

/-- Backtracking over group 1's length (from the greedy maximum down to
1). -/
def tryGroup1 (s : List Char) :
    Nat → Option (List Char × List Char × List Char × List Char)
  | 0 => none
  | len1 + 1 =>
    let rest := s.drop (len1 + 1)
    match tryGroup2 rest ((rest.takeWhile mClass2).length) with
    | some (g2, g3, rem) => some (s.take (len1 + 1), g2, g3, rem)
    | none => tryGroup1 s len1

/-- Attempt a match of `ModuleIdPattern` anchored at the head of `s`,
returning the three captured groups and the remaining text. -/
def matchIdAt (s : List Char) :
    Option (List Char × List Char × List Char × List Char) :=
  tryGroup1 s ((s.takeWhile mClass1).length)

/-- `ReplaceAllString` driver: scan left to right; at each position try
an anchored match, emit `f groups` for a match and continue after it,
otherwise keep the character and move on.  `fuel` bounds the recursion
(a match consumes at least three characters, so `s.length` is ample). -/
def replaceAllGo (f : List Char × List Char × List Char → List Char) :
    Nat → List Char → List Char
  | 0, s => s
  | _ + 1, [] => []
  | fuel + 1, c :: rest =>
    match matchIdAt (c :: rest) with
    | some (g1, g2, g3, rem) => f (g1, g2, g3) ++ replaceAllGo f fuel rem
    | none => c :: replaceAllGo f fuel rest

/-- `ModuleIdRegexp.ReplaceAllString(id, "$1")`. -/
def replaceAllGroup1 (id : String) : String :=
  ⟨replaceAllGo (fun g => g.1) id.data.length id.data⟩

/-- `ModuleIdRegexp.ReplaceAllString(id, "$2$3")`. -/
def replaceAllGroup23 (id : String) : String :=
  ⟨replaceAllGo (fun g => g.2.1 ++ g.2.2) id.data.length id.data⟩

/-- Modelled from the spec: `TrimModuleName` is called on the `$1`
replacement but is not part of the provided sources (only its caller
is).  Per the spec the name is "trimmed of any platform-reserved
prefix/suffix markers", and the spec's own example (`mod-users-19.3.0`
resolving to name `mod-users` and sidecar `mod-users-sc`) fixes the
marker to the trailing hyphen delimiter left by group 1, so we model it
as dropping trailing hyphens. -/
def TrimModuleName (s : String) : String :=
  ⟨(s.data.reverse.dropWhile (· == '-')).reverse⟩

/-- The fields of a registry module the resolver fills in. -/
structure ModuleRef where
  name : String
  version : String
  sidecarName : String
deriving DecidableEq

/-- The per-module body of `ExtractModuleNameAndVersion` (for a module
whose id is not the reserved `"okapi"`, which is skipped unchanged).
It is total: it always fills the three fields and signals no error. -/
def resolveModuleId (id : String) : ModuleRef :=
  let name := TrimModuleName (replaceAllGroup1 id)
  { name := name
    version := replaceAllGroup23 id
    sidecarName := name ++ "-sc" }

/-! ## Supporting lemmas -/

/-- If the first `k` probes starting at attempt `i` are unhealthy, the
loop just runs the counter down by `k`. -/
theorem healthcheckLoop_skip (probe : Nat → ProbeResponse) :
    ∀ (k i n : Nat), (∀ j, j < k → isHealthyResponse (probe (i + j)) = false) →
      k < n → healthcheckLoop probe n i = healthcheckLoop probe (n - k) (i + k) := by
  intro k
  induction k with
  | zero => intro i n _ _; simp
  | succ k ih =>
    intro i n h hk
    match n, hk with
    | n + 1, hk =>
      have h0 : isHealthyResponse (probe i) = false := by
        have := h 0 (Nat.succ_pos k)
        simpa using this
      have hn : 0 < n := by omega
      have : healthcheckLoop probe (n + 1) i = healthcheckLoop probe n (i + 1) := by
        simp [healthcheckLoop, h0, hn]
      rw [this]
      have := ih (i + 1) n (fun j hj => by
        have := h (j + 1) (by omega)
        simpa [Nat.add_assoc, Nat.add_comm 1 j] using this) (by omega)
      rw [this]
      congr 1 <;> omega


/-- Accumulator lemma: when every per-application list is non-empty the
capability-set loop concatenates them all after the accumulator. -/
theorem getCapabilitySetsLoop_all_nonempty (l : List (List CapabilitySet)) :
    ∀ acc, (∀ sets ∈ l, sets ≠ []) →
      GetCapabilitySetsLoop acc l = acc ++ l.flatten := by
  induction l with
  | nil => intro acc _; simp [GetCapabilitySetsLoop]
  | cons s rest ih =>
    intro acc h
    have hs : s.isEmpty = false := by
      have := h s (by simp)
      simpa [List.isEmpty_iff] using this
    rw [GetCapabilitySetsLoop, if_neg (by simp [hs]),
      ih (acc ++ s) (fun x hx => h x (by simp [hx]))]
    simp

/-- Accumulator lemma: as soon as some per-application list is empty the
capability-set loop discards everything and returns the empty list. -/
theorem getCapabilitySetsLoop_empty_member (l : List (List CapabilitySet)) :
    ∀ acc, [] ∈ l → GetCapabilitySetsLoop acc l = [] := by
  induction l with
  | nil => intro acc h; simp at h
  | cons s rest ih =>
    intro acc h
    by_cases hs : s.isEmpty = true
    · rw [GetCapabilitySetsLoop, if_pos (by simp [hs])]
    · rcases List.mem_cons.mp h with h | h
      · exact absurd (List.isEmpty_iff.mpr h.symm) hs
      · rw [GetCapabilitySetsLoop, if_neg (by simpa using hs), ih _ h]

/-- Every tenant `RemoveTenants` deletes has a configured name. -/
theorem removeTenants_only_configured (platform : List Tenant) (configured : List String) :
    ∀ t ∈ RemoveTenants platform configured, configured.contains t.name = true := by
  induction platform with
  | nil => intro t ht; simp [RemoveTenants] at ht
  | cons u rest ih =>
    intro t ht
    rw [RemoveTenants] at ht
    cases hc : configured.contains u.name with
    | true =>
      rw [if_pos hc] at ht
      rcases List.mem_cons.mp ht with h | h
      · rw [h]; exact hc
      · exact ih t h
    | false =>
      rw [if_neg (by rw [hc]; exact Bool.false_ne_true)] at ht
      exact ih t ht

/-- Every tenant `RemoveTenantEntitlements` deletes an entitlement for
has a configured name. -/
theorem removeTenantEntitlements_only_configured (platform : List Tenant)
    (configured : List String) :
    ∀ t ∈ RemoveTenantEntitlements platform configured,
      configured.contains t.name = true := by
  induction platform with
  | nil => intro t ht; simp [RemoveTenantEntitlements] at ht
  | cons u rest ih =>
    intro t ht
    rw [RemoveTenantEntitlements] at ht
    cases hc : configured.contains u.name with
    | true =>
      rw [if_pos hc] at ht
      rcases List.mem_cons.mp ht with h | h
      · rw [h]; exact hc
      · exact ih t h
    | false =>
      rw [if_neg (by rw [hc]; exact Bool.false_ne_true)] at ht
      exact ih t ht

theorem toLowerGo_toUpperGo (c : Char) (h : 'a' ≤ c ∧ c ≤ 'z') :
    toLowerGo (toUpperGo c) = c := by
  rw [← Char.ofNat_toNat c]
  have h1 : 97 ≤ c.toNat := by
    have := h.1; rw [Char.le_def] at this; exact this
  have h2 : c.toNat ≤ 122 := by
    have := h.2; rw [Char.le_def] at this; exact this
  interval_cases h : c.toNat <;> decide

theorem toLowerGo_of_not_upper (c : Char) (h : ¬('A' ≤ c ∧ c ≤ 'Z')) :
    toLowerGo c = c := by
  rw [toLowerGo, if_neg h]

theorem titleGo_map_toLowerGo (l : List Char) (h : ∀ c ∈ l, ¬('A' ≤ c ∧ c ≤ 'Z')) :
    ∀ flag, (titleGo flag l).map toLowerGo = l := by
  induction l with
  | nil => intro flag; simp [titleGo]
  | cons c cs ih =>
    intro flag
    have hc := h c (by simp)
    have hcs : ∀ x ∈ cs, ¬('A' ≤ x ∧ x ≤ 'Z') := fun x hx => h x (by simp [hx])
    rw [titleGo]
    by_cases hl : isLetterGo c = true
    · rw [if_pos hl]
      have hlow : 'a' ≤ c ∧ c ≤ 'z' := by
        rw [isLetterGo] at hl
        simp only [Bool.or_eq_true, Bool.and_eq_true, decide_eq_true_eq] at hl
        rcases hl with h1 | h1
        · exact h1
        · exact absurd h1 hc
      cases flag with
      | true => simp [ih hcs false, toLowerGo_toUpperGo c hlow]
      | false => simp [ih hcs false, toLowerGo_of_not_upper c hc]
    · rw [if_neg hl]
      simp only [List.map_cons, ih hcs true, toLowerGo_of_not_upper c hc]

theorem strToLower_titleCaseGo (s : String) (h : ∀ c ∈ s.data, ¬('A' ≤ c ∧ c ≤ 'Z')) :
    strToLower (titleCaseGo s) = s := by
  rw [strToLower, titleCaseGo]
  cases s with
  | mk data => exact congrArg String.mk (titleGo_map_toLowerGo data h true)

theorem lookupRoleKey_of_mem (rolesMap : List (String × RoleConfig)) (k : String)
    (cfg : RoleConfig) (hnd : (rolesMap.map Prod.fst).Nodup) (hmem : (k, cfg) ∈ rolesMap) :
    lookupRoleKey rolesMap k = some cfg := by
  induction rolesMap with
  | nil => simp at hmem
  | cons p rest ih =>
    rcases List.mem_cons.mp hmem with h | h
    · rw [lookupRoleKey, List.find?_cons_of_pos _ (by rw [← h]; simp)]
      simp [← h]
    · have hk : k ∈ rest.map Prod.fst := List.mem_map.mpr ⟨(k, cfg), h, rfl⟩
      have hnd2 : (p.1 :: rest.map Prod.fst).Nodup := by
        rw [List.map_cons] at hnd; exact hnd
      have hnd' := List.nodup_cons.mp hnd2
      have hne : p.1 ≠ k := by
        intro he
        rw [he] at hnd'
        exact hnd'.1 hk
      rw [lookupRoleKey, List.find?_cons_of_neg _ (by simp [hne])]
      exact ih hnd'.2 h

theorem takeWhile_all_true (f : Char → Bool) (l : List Char) (h : ∀ c ∈ l, f c = true) :
    l.takeWhile f = l := by
  induction l with
  | nil => simp
  | cons c cs ih =>
    rw [List.takeWhile_cons_of_pos (h c (by simp))]
    rw [ih (fun x hx => h x (by simp [hx]))]

theorem takeWhile_append_stop (f : Char → Bool) (p : List Char) (d : Char) (w : List Char)
    (hp : ∀ c ∈ p, f c = true) (hd : f d = false) :
    (p ++ d :: w).takeWhile f = p := by
  induction p with
  | nil => simpa using List.takeWhile_cons_of_neg (p := f) (l := w) (by simp [hd])
  | cons c cs ih =>
    rw [List.cons_append, List.takeWhile_cons_of_pos (hp c (by simp)),
      ih (fun x hx => hp x (by simp [hx]))]

theorem takeWhile_length_eq_all (f : Char → Bool) (l : List Char)
    (h : (l.takeWhile f).length = l.length) : ∀ c ∈ l, f c = true := by
  induction l with
  | nil => simp
  | cons c cs ih =>
    intro x hx
    by_cases hc : f c = true
    · rw [List.takeWhile_cons_of_pos hc] at h
      simp only [List.length_cons, Nat.add_right_cancel_iff] at h
      rcases List.mem_cons.mp hx with h1 | h1
      · rw [h1]; exact hc
      · exact ih h x h1
    · rw [List.takeWhile_cons_of_neg (by simpa using hc)] at h
      simp at h

theorem char_toNat_bounds_of_isDigit (c : Char) (h : isDigitCh c = true) :
    48 ≤ c.toNat ∧ c.toNat ≤ 57 := by
  rw [isDigitCh] at h
  simp only [Bool.and_eq_true, decide_eq_true_eq] at h
  obtain ⟨h1, h2⟩ := h
  rw [Char.le_def] at h1 h2
  exact ⟨h1, h2⟩

theorem mClass1_digit_false (c : Char) (h : isDigitCh c = true) : mClass1 c = false := by
  obtain ⟨h1, h2⟩ := char_toNat_bounds_of_isDigit c h
  rw [← Char.ofNat_toNat c]
  interval_cases h3 : c.toNat <;> decide

theorem mClass2_digit_true (c : Char) (h : isDigitCh c = true) : mClass2 c = true := by
  rw [mClass2, h]
  rfl

theorem mClass3_of_mClass2 (c : Char) (h : mClass2 c = true) : mClass3 c = true := by
  rw [mClass2] at h
  rw [mClass3]
  simp only [Bool.or_eq_true] at h ⊢
  tauto

theorem replaceAllGo_nil (f : List Char × List Char × List Char → List Char) :
    ∀ n, replaceAllGo f n [] = []
  | 0 => rfl
  | _ + 1 => rfl

theorem tryGroup2_spec (v : List Char)
    (hd : ∃ d w, v = d :: w ∧ isDigitCh d = true)
    (hv3 : ∀ c ∈ v, mClass3 c = true)
    (hv2 : 2 ≤ v.length) :
    ∃ g2 g3, tryGroup2 v ((v.takeWhile mClass2).length) = some (g2, g3, []) ∧
      g2 ++ g3 = v := by
  obtain ⟨d, w, hv, hdig⟩ := hd
  have hm1 : 1 ≤ (v.takeWhile mClass2).length := by
    rw [hv, List.takeWhile_cons_of_pos (mClass2_digit_true d hdig)]
    simp
  have hmle : (v.takeWhile mClass2).length ≤ v.length :=
    (List.takeWhile_sublist _).length_le
  rcases Nat.lt_or_ge (v.takeWhile mClass2).length v.length with hlt | hge
  · -- group 2 takes the maximal class-2 run; group 3 eats the rest
    obtain ⟨m, hm⟩ : ∃ m, (v.takeWhile mClass2).length = m + 1 :=
      Exists.intro ((v.takeWhile mClass2).length - 1) (by omega)
    have hb3 : ∀ c ∈ v.drop (m + 1), mClass3 c = true :=
      fun c hc => hv3 c (List.drop_subset _ _ hc)
    have hbtw : (v.drop (m + 1)).takeWhile mClass3 = v.drop (m + 1) :=
      takeWhile_all_true _ _ hb3
    have hblen : (v.drop (m + 1)).length = v.length - (m + 1) := List.length_drop _ _
    have hbne : (v.drop (m + 1)).isEmpty = false := by
      cases hdrop : v.drop (m + 1) with
      | nil => rw [hdrop] at hblen; simp at hblen; omega
      | cons x xs => rfl
    rw [hm, tryGroup2, hbtw]
    rw [if_neg (by simp [hbne])]
    refine ⟨v.take (m + 1), v.drop (m + 1), ?_, List.take_append_drop _ _⟩
    have heq : m + 1 + (v.drop (m + 1)).length = v.length := by omega
    rw [heq, List.drop_length]
  · -- every character of v is in class 2: group 2 backtracks one step
    have hmeq : (v.takeWhile mClass2).length = v.length := by omega
    have hall2 : ∀ c ∈ v, mClass2 c = true := takeWhile_length_eq_all _ _ hmeq
    obtain ⟨n, hn⟩ : ∃ n, v.length = n + 2 :=
      Exists.intro (v.length - 2) (by omega)
    have hd1 : (v.drop (n + 2)).takeWhile mClass3 = [] := by
      rw [← hn, List.drop_length]
      rfl
    have hlast3 : ∀ c ∈ v.drop (n + 1), mClass3 c = true :=
      fun c hc => mClass3_of_mClass2 c (hall2 c (List.drop_subset _ _ hc))
    have hlasttw : (v.drop (n + 1)).takeWhile mClass3 = v.drop (n + 1) :=
      takeWhile_all_true _ _ hlast3
    have hlastlen : (v.drop (n + 1)).length = 1 := by
      rw [List.length_drop]
      omega
    have hlastne : (v.drop (n + 1)).isEmpty = false := by
      cases hdrop : v.drop (n + 1) with
      | nil => rw [hdrop] at hlastlen; simp at hlastlen
      | cons x xs => rfl
    rw [hmeq, hn, tryGroup2, hd1,
      if_pos (show ([] : List Char).isEmpty = true from rfl), tryGroup2, hlasttw]
    rw [if_neg (by simp [hlastne])]
    refine ⟨v.take (n + 1), v.drop (n + 1), ?_, List.take_append_drop _ _⟩
    rw [hlastlen]
    have heq : n + 1 + 1 = v.length := by omega
    rw [heq, List.drop_length]

theorem matchIdAt_spec (p v : List Char) (hp : p ≠ [])
    (hp1 : ∀ c ∈ p, mClass1 c = true)
    (hd : ∃ d w, v = d :: w ∧ isDigitCh d = true)
    (hv3 : ∀ c ∈ v, mClass3 c = true) (hv2 : 2 ≤ v.length) :
    ∃ g2 g3, matchIdAt (p ++ v) = some (p, g2, g3, []) ∧ g2 ++ g3 = v := by
  obtain ⟨d, w, hv, hdig⟩ := hd
  have htw : (p ++ v).takeWhile mClass1 = p := by
    rw [hv]
    exact takeWhile_append_stop _ _ _ _ hp1 (mClass1_digit_false d hdig)
  obtain ⟨k, hk⟩ : ∃ k, p.length = k + 1 := by
    cases hp2 : p with
    | nil => exact absurd hp2 hp
    | cons c cs => exact Exists.intro cs.length (by simp)
  have hrest : (p ++ v).drop (k + 1) = v := by
    rw [← hk]
    exact List.drop_left p v
  have htake : (p ++ v).take (k + 1) = p := by
    rw [← hk]
    exact List.take_left p v
  obtain ⟨g2, g3, hspec, hcat⟩ :=
    tryGroup2_spec v ⟨d, w, hv, hdig⟩ hv3 hv2
  rw [matchIdAt, htw, hk, tryGroup1, hrest, hspec, htake]
  exact ⟨g2, g3, rfl, hcat⟩



/-! ## Claims -/

/-- C1: the claim says the barrier keeps the lag value last observed
before a transient tick, remains Polling, and in particular the sample
sequence `[5, 5, "rebalancing", 2, 0]` drains only at the fifth tick
while retaining 5 across the rebalancing tick.  The code violates this:
`getConsumerGroupLag` itself would retain its `initialLag` argument
(second conjunct), but the caller's `lag := getConsumerGroupLag(..., lag)`
shadows the outer `var lag int`, so the call always receives 0 and the
rebalancing tick returns lag 0, draining the barrier after only three
ticks (first conjunct) instead of retaining 5 and continuing. -/
theorem c1_lag_barrier_transient_retention :
    pollCapabilitySetsCreation sampleTickSeq = (.drained, 3) ∧
    getConsumerGroupLag ⟨IsRebalancingErrorMessage, ""⟩ 5 = .val 5 ∧
    getConsumerGroupLag ⟨IsRebalancingErrorMessage, ""⟩ 0 = .val 0 ∧
    pollCapabilitySetsCreation sampleTickSeq ≠ (.drained, 5) := by decide

/-- C2 counterexample: a tick whose administrative call succeeds (empty
stderr) but whose stdout does not parse as an integer does NOT fatally
abort — `getConsumerGroupLag` logs and returns its `initialLag`
argument, and the barrier keeps polling. -/
theorem c2_counterexample_nonnumeric_not_fatal :
    getConsumerGroupLag ⟨"", "unparseable"⟩ 5 ≠ .fatal ∧
    getConsumerGroupLag ⟨"", "unparseable"⟩ 5 = .val 5 := by decide

/-- C2 (amended): a tick whose administrative call fails with stderr
text matching neither tolerated transient pattern fatally aborts the
run; a tick whose call succeeds but whose output does not parse as an
integer instead logs an error, keeps the initial lag value and the
barrier continues to poll. -/
theorem c2_lag_error_handling (t : LagTick) (initialLag : Int) :
    (t.stderr.length > 0 → toleratedStderr t.stderr = false →
      getConsumerGroupLag t initialLag = .fatal) ∧
    (t.stderr.length = 0 →
      goAtoi (trimSpaceCL (stripNewlines t.stdout.data)) = none →
      getConsumerGroupLag t initialLag = .val initialLag) := by
  constructor
  · intro hlen htol
    rw [getConsumerGroupLag, if_pos hlen, if_neg (by simp [htol])]
  · intro hlen hparse
    rw [getConsumerGroupLag, if_neg (by omega), hparse]

/-- C2 witness: the amended theorem applied at concrete ticks. -/
theorem c2_lag_error_handling_witness :
    getConsumerGroupLag ⟨"disk on fire", ""⟩ 3 = .fatal ∧
    getConsumerGroupLag ⟨"", "garbage"⟩ 3 = .val 3 :=
  ⟨(c2_lag_error_handling ⟨"disk on fire", ""⟩ 3).1 (by decide) (by decide),
   (c2_lag_error_handling ⟨"", "garbage"⟩ 3).2 (by decide) (by decide)⟩

/-- C3: with the default ceiling of 50 attempts, a module unhealthy on
the first 49 attempts and healthy on the 50th reports healthy; one
unhealthy on all 50 attempts fatally aborts; and on every attempt both
accepted response shapes — a plain-text body containing `"OK"`, or a
JSON body whose `status` field contains `"UP"` — are checked, either
sufficing. -/
theorem c3_healthcheck_attempts (probe : Nat → ProbeResponse)
    (h49 : ∀ j, j < 49 → isHealthyResponse (probe j) = false) :
    (isHealthyResponse (probe 49) = true →
      PerformModuleHealthcheck probe = .healthy) ∧
    (isHealthyResponse (probe 49) = false →
      PerformModuleHealthcheck probe = .fatalAbort) ∧
    (∀ r : ProbeResponse, isHealthyResponse r = true ↔
      (strContains r.body "OK" = true ∨
        ∃ s, r.statusField = some s ∧ strContains s "UP" = true)) := by
  have hskip := healthcheckLoop_skip probe 49 0 50 (by simpa using h49) (by omega)
  refine ⟨?_, ?_, ?_⟩
  · intro h
    rw [PerformModuleHealthcheck, HealtcheckMaxAttempts, hskip]
    norm_num [healthcheckLoop, h]
  · intro h
    rw [PerformModuleHealthcheck, HealtcheckMaxAttempts, hskip]
    norm_num [healthcheckLoop, h]
  · intro r
    rw [isHealthyResponse]
    cases h : r.statusField <;> simp [h]

/-- C3 witness: the theorem applied to `probeTraceW`. -/
theorem c3_healthcheck_attempts_witness :
    PerformModuleHealthcheck probeTraceW = .healthy :=
  (c3_healthcheck_attempts probeTraceW (by decide)).1 (by decide)

/-- C4: the claim is right that a role-by-name lookup finding two or
more records is a fatal invariant violation, but wrong for the code as
written on zero records: the claim (with the spec) says user
provisioning logs a warning, skips the role name and continues, while
the code aborts — `GetRoleByName` panics on any count other than one
(so also on an empty `roles` array), and when the response's `roles`
field is null `GetRoleByName` returns a nil map on which `CreateUsers`'
`role["id"].(string)` type assertion panics.  `CreateUsers`' own
`if roleId == "" { warn; continue }` branch — the intended skip-and-warn
path — is unreachable for an actual zero-match lookup. -/
theorem c4_role_lookup_zero_matches_panics :
    GetRoleByName (some [⟨"id1", "Admin"⟩, ⟨"id2", "Admin"⟩]) = .fatalPanic ∧
    GetRoleByName (some []) = .fatalPanic ∧
    createUsersRoleStep (some []) = .panicked ∧
    createUsersRoleStep none = .panicked ∧
    createUsersRoleStep (some [⟨"id1", "Admin"⟩]) = .attachedRole "id1" := by decide

/-- C5 counterexample: with the `["all"]` sentinel and two registered
applications, one owning capability set `cs-1` and the other owning
none, the code attaches nothing — `GetCapabilitySets` `return nil`s on
the first application whose query comes back empty, discarding the
accumulated sets — even though the union over every application is
`{cs-1}`. -/
theorem c5_counterexample_empty_application :
    attachAllCapabilitySetIds [[⟨"cs-1"⟩], []] = [] ∧
    ([[⟨"cs-1"⟩], []] : List (List CapabilitySet)).flatten.map (·.id) = ["cs-1"] := by
  decide

/-- C5 (amended): for a role configured with the single sentinel entry
`"all"`, the attached ids are the concatenation of every registered
application's capability sets — the code performs no deduplication, so
the attached ids are free of duplicates only when the platform's
per-application lists are — and only provided every registered
application reports at least one capability set; if any application
reports none, nothing at all is attached. -/
theorem c5_all_sentinel_attaches_concatenation (perApp : List (List CapabilitySet)) :
    ((∀ sets ∈ perApp, sets ≠ []) →
      attachAllCapabilitySetIds perApp = perApp.flatten.map (·.id)) ∧
    ([] ∈ perApp → attachAllCapabilitySetIds perApp = []) := by
  constructor
  · intro h
    rw [attachAllCapabilitySetIds, GetCapabilitySets,
      getCapabilitySetsLoop_all_nonempty perApp [] h]
    simp
  · intro h
    rw [attachAllCapabilitySetIds, GetCapabilitySets,
      getCapabilitySetsLoop_empty_member perApp [] h]
    simp

/-- C5 witness: the amended theorem applied at concrete platform
states. -/
theorem c5_all_sentinel_attaches_concatenation_witness :
    attachAllCapabilitySetIds [[⟨"cs-a"⟩], [⟨"cs-b"⟩]] =
      ([[⟨"cs-a"⟩], [⟨"cs-b"⟩]] : List (List CapabilitySet)).flatten.map (·.id) ∧
    attachAllCapabilitySetIds [[⟨"cs-a"⟩], [], [⟨"cs-b"⟩]] = [] :=
  ⟨(c5_all_sentinel_attaches_concatenation _).1 (by decide),
   (c5_all_sentinel_attaches_concatenation _).2 (by decide)⟩

/-- C8 counterexample: a module present in both configuration maps with
the backend deploy flag false and the frontend deploy flag true is
SKIPPED by `CreateApplications` (the condition skips when either side
declines), contradicting the claim that it would be classified and
included because at least one flag is true. -/
theorem c8_counterexample_one_flag_true_still_skipped :
    shouldSkipModule (some false) (some true) = true ∧
    specSkipWhenBothDecline false true = false := by decide

/-- C8 (amended): a registry module present in both the backend and the
frontend configuration maps is skipped exactly when at least one of the
two deploy flags is false — it is included only when both are true; a
module present in exactly one map is skipped exactly when that map's
flag is false, and a module present in neither map is skipped. -/
theorem c8_skip_condition :
    (∀ b f : Bool, shouldSkipModule (some b) (some f) = (!b || !f)) ∧
    (∀ b : Bool, shouldSkipModule (some b) none = !b) ∧
    (∀ f : Bool, shouldSkipModule none (some f) = !f) ∧
    shouldSkipModule none none = true := by decide

/-- C9: every tenant the platform reports whose name is not in the
configured tenant set receives no delete call from `RemoveTenants` and
no entitlement-delete call from `RemoveTenantEntitlements`, even when
reported alongside configured tenants. -/
theorem c9_unconfigured_tenants_untouched (platform : List Tenant)
    (configured : List String) (t : Tenant) (_hmem : t ∈ platform)
    (hname : t.name ∉ configured) :
    t ∉ RemoveTenants platform configured ∧
    t ∉ RemoveTenantEntitlements platform configured := by
  constructor
  · intro ht
    exact hname (by
      simpa using removeTenants_only_configured platform configured t ht)
  · intro ht
    exact hname (by
      simpa using removeTenantEntitlements_only_configured platform configured t ht)

/-- C9 witness: the theorem applied to a platform reporting an extra
tenant beside the configured one. -/
theorem c9_unconfigured_tenants_untouched_witness :
    (⟨"t2", "extra"⟩ : Tenant) ∉ RemoveTenants [⟨"t1", "diku"⟩, ⟨"t2", "extra"⟩] ["diku"] ∧
    (⟨"t2", "extra"⟩ : Tenant) ∉
      RemoveTenantEntitlements [⟨"t1", "diku"⟩, ⟨"t2", "extra"⟩] ["diku"] :=
  c9_unconfigured_tenants_untouched _ _ _ (by decide) (by decide)


/-- C6 counterexample: the identifier `"not-a-valid-id"` (no digit run)
does not produce any error: the regex still matches it (the hyphen
before `"id"` satisfies the version-start class `[\d-_.]`), and the
resolver silently emits a `ModuleRef` whose name and version fields are
non-empty but wrong. -/
theorem c6_counterexample_no_error_emitted :
    resolveModuleId "not-a-valid-id" =
      { name := "not-a-valid", version := "-id", sidecarName := "not-a-valid-sc" } ∧
    (resolveModuleId "not-a-valid-id").name ≠ "" ∧
    (resolveModuleId "not-a-valid-id").version ≠ "" := by decide

/-- C6 (amended): the resolver signals no `MalformedIdentifier` error —
no error path exists, `resolveModuleId` is total.  A raw id with no
digit run such as `"not-a-valid-id"` is still matched by the regex
(a hyphen satisfies the version character class) and yields wrong but
unsignalled name/version fields, and an id the regex does not match at
all is passed through unchanged as both name and version. -/
theorem c6_malformed_id_not_rejected :
    resolveModuleId "not-a-valid-id" =
      { name := "not-a-valid", version := "-id", sidecarName := "not-a-valid-sc" } ∧
    resolveModuleId "NOTVALID" =
      { name := "NOTVALID", version := "NOTVALID", sidecarName := "NOTVALID-sc" } := by
  decide

/-- C7: for every valid raw identifier of the form name+digits+qualifier
— a non-empty name part `p` of lowercase letters, hyphens and
underscores followed by a version part `v` (at least two characters,
as every real version is) that begins with a digit and consists of
alphanumerics, hyphens, underscores and dots — the resolver yields name
equal to the leading name part (the `$1` capture, which includes the
delimiting hyphen, trimmed by `TrimModuleName`), version equal to the
remaining suffix starting at the first digit run, and sidecar name
equal to the name followed by the fixed `"-sc"` suffix. -/
theorem c7_resolver_valid_identifiers (p v : List Char) (hp : p ≠ [])
    (hp1 : ∀ c ∈ p, mClass1 c = true)
    (hd : ∃ d w, v = d :: w ∧ isDigitCh d = true)
    (hv3 : ∀ c ∈ v, mClass3 c = true) (hv2 : 2 ≤ v.length) :
    resolveModuleId ⟨p ++ v⟩ =
      { name := TrimModuleName ⟨p⟩
        version := ⟨v⟩
        sidecarName := TrimModuleName ⟨p⟩ ++ "-sc" } := by
  obtain ⟨g2, g3, hmatch, hcat⟩ := matchIdAt_spec p v hp hp1 hd hv3 hv2
  obtain ⟨c, t, hct⟩ : ∃ c t, p ++ v = c :: t := by
    cases hpv : p ++ v with
    | nil =>
      rw [List.append_eq_nil] at hpv
      exact absurd hpv.1 hp
    | cons c cs => exact Exists.intro c (Exists.intro cs rfl)
  rw [hct] at hmatch
  have hra : ∀ f : List Char × List Char × List Char → List Char,
      replaceAllGo f (p ++ v).length (p ++ v) = f (p, g2, g3) := by
    intro f
    rw [hct, List.length_cons, replaceAllGo, hmatch]
    show f (p, g2, g3) ++ replaceAllGo f t.length [] = f (p, g2, g3)
    rw [replaceAllGo_nil f t.length]
    exact List.append_nil _
  rw [resolveModuleId, replaceAllGroup1, replaceAllGroup23]
  show ModuleRef.mk
      (TrimModuleName ⟨replaceAllGo (fun g => g.1) (p ++ v).length (p ++ v)⟩)
      ⟨replaceAllGo (fun g => g.2.1 ++ g.2.2) (p ++ v).length (p ++ v)⟩
      (TrimModuleName ⟨replaceAllGo (fun g => g.1) (p ++ v).length (p ++ v)⟩ ++ "-sc") = _
  rw [hra (fun g => g.1), hra (fun g => g.2.1 ++ g.2.2)]
  show ModuleRef.mk (TrimModuleName ⟨p⟩) ⟨g2 ++ g3⟩ (TrimModuleName ⟨p⟩ ++ "-sc") = _
  rw [hcat]


/-- C7 witness: the theorem applied to the spec's example
`"mod-users-19.3.0"`. -/
theorem c7_resolver_valid_identifiers_witness :
    resolveModuleId "mod-users-19.3.0" =
      { name := "mod-users", version := "19.3.0", sidecarName := "mod-users-sc" } := by
  have h := c7_resolver_valid_identifiers "mod-users-".data "19.3.0".data
    (by decide) (by decide)
    ⟨'1', "9.3.0".data, by decide, by decide⟩ (by decide) (by decide)
  have he : ("mod-users-19.3.0" : String) = ⟨"mod-users-".data ++ "19.3.0".data⟩ := by
    decide
  rw [he, h]
  decide

/-- C10: role-name case normalization is asymmetric but closes the
loop: `CreateRoles` creates a configured role key under its title-cased
form, and both `AttachCapabilitySetsToRoles` and
`DetachCapabilitySetsFromRoles` select a platform role by looking up
the lowercased platform role name among the configured keys — so for a
configuration whose role keys are lowercase (no ASCII uppercase
characters; viper lowercases configuration keys), a role created by
`CreateRoles` is matched again by the attach and the detach selection
(attach additionally requires — and here gets — the role's own
configured tenant). -/
theorem c10_role_case_normalization (rolesMap : List (String × RoleConfig))
    (k : String) (cfg : RoleConfig)
    (hnd : (rolesMap.map Prod.fst).Nodup)
    (hmem : (k, cfg) ∈ rolesMap)
    (hlower : ∀ c ∈ k.data, ¬('A' ≤ c ∧ c ≤ 'Z')) :
    titleCaseGo k ∈ CreateRoles cfg.tenant rolesMap ∧
    attachProcessesRole rolesMap cfg.tenant (titleCaseGo k) = true ∧
    detachProcessesRole rolesMap (titleCaseGo k) = true ∧
    strToLower (titleCaseGo k) = k := by
  have hlow := strToLower_titleCaseGo k hlower
  refine ⟨?_, ?_, ?_, hlow⟩
  · rw [CreateRoles]
    exact List.mem_filterMap.mpr ⟨(k, cfg), hmem, by simp⟩
  · rw [attachProcessesRole, hlow, lookupRoleKey_of_mem rolesMap k cfg hnd hmem]
    simp
  · rw [detachProcessesRole, hlow, lookupRoleKey_of_mem rolesMap k cfg hnd hmem]
    simp

/-- C10 witness: the theorem applied to the configuration key
`"admin"`, which becomes platform role `"Admin"`. -/
theorem c10_role_case_normalization_witness :
    titleCaseGo "admin" = "Admin" ∧
    titleCaseGo "admin" ∈ CreateRoles "diku" [("admin", ⟨"diku"⟩)] ∧
    attachProcessesRole [("admin", ⟨"diku"⟩)] "diku" (titleCaseGo "admin") = true ∧
    detachProcessesRole [("admin", ⟨"diku"⟩)] (titleCaseGo "admin") = true ∧
    strToLower (titleCaseGo "admin") = "admin" :=
  ⟨by decide,
   c10_role_case_normalization [("admin", ⟨"diku"⟩)] "admin" ⟨"diku"⟩
    (by decide) (by decide) (by decide)⟩


end EurekaSetup
